import Mathlib

/-!
Verification development for the architecture-diagram-generator repository.

The frontend (Frontend/src/App.tsx, ComponentList.tsx, PseudoDiagram.tsx) is
embedded directly.  The backend service (Backend/main.py) is not part of the
source tree; the pieces of it that the properties below need (the Structured
Extractor, the progress-event producer, the base64 encoding of the rendered
image) are modelled from the specification and from the backend data models
documented in the repository (src/unnamed/part_003), and are marked
`Modelled from the spec:` in their doc comments.
-/

namespace DiagramGen

/-! ## Progress events (Frontend/src/App.tsx, interface ProgressEvent) -/

/-- The closed status set of a progress event, from the `status` field of the
`ProgressEvent` interface in App.tsx:
`'info' | 'success' | 'error' | 'warning' | 'complete'`. -/
inductive Status where
  | info
  | success
  | error
  | warning
  | complete
deriving DecidableEq, Repr

/-- A progress event, from the `ProgressEvent` interface in App.tsx.
Optional fields are `Option`s; `progress` is the percentage. -/
structure ProgressEvent where
  message : String
  status : Status
  progress : Option Nat := none
  timestamp : Option String := none
  image_data : Option String := none
  filename : Option String := none
  file_size : Option Nat := none
  s3_url : Option String := none
  request_id : Option String := none
deriving DecidableEq, Repr

/-- A terminal event is a `complete` or an `error` (spec §3, §4.3). -/
def ProgressEvent.isTerminal (e : ProgressEvent) : Bool :=
  e.status = Status.complete || e.status = Status.error

/-! ## The page state of App.tsx

One field per `useState` hook of the `App` component.  `selectedFile` keeps
the metadata of the chosen file; `diagramUrl` stands for the object URL bound
to the diagram, represented by the byte content of the blob it points at. -/

/-- Metadata of a file chosen in the file input (name and MIME type). -/
structure FileMeta where
  name : String
  mime : String
deriving DecidableEq, Repr

/-- The state of the `App` component: one field per `useState` hook, in
source order (App.tsx lines 17-28). -/
structure AppState where
  selectedFile : Option FileMeta
  uploading : Bool
  generatingSummary : Bool
  summaryText : String
  diagramPrompt : String
  showSummaryEditor : Bool
  diagramUrl : Option (List Nat)
  error : Option String
  progressMessages : List ProgressEvent
  progressPercent : Nat
  awsRegion : String
  bedrockModelId : String
deriving Repr

/-- The initial state: the `useState` initial values of App.tsx. -/
def initialState : AppState where
  selectedFile := none
  uploading := false
  generatingSummary := false
  summaryText := ""
  diagramPrompt := ""
  showSummaryEditor := false
  diagramUrl := none
  error := none
  progressMessages := []
  progressPercent := 0
  awsRegion := "us-east-1"
  bedrockModelId := "arn:aws:bedrock:us-east-1:302263040839:inference-profile/us.anthropic.claude-haiku-4-5-20251001-v1:0"

/-- JavaScript `String.prototype.trim` on ASCII whitespace: drop leading
and trailing whitespace characters. -/
def trimAscii (s : String) : String :=
  String.mk (((s.toList.dropWhile Char.isWhitespace).reverse.dropWhile
    Char.isWhitespace).reverse)

/-- JavaScript `line.startsWith(pre)`. -/
def jsStartsWith (line pre : String) : Bool :=
  pre.toList.isPrefixOf line.toList

/-- JavaScript `line.slice(n)` for a non-negative index. -/
def jsSlice (line : String) (n : Nat) : String :=
  String.mk (line.toList.drop n)

/-- An outbound HTTP request: URL plus the form-data fields appended to it. -/
structure NetRequest where
  url : String
  fields : List (String × String)
deriving DecidableEq, Repr

/-! ## handleFileChange (App.tsx lines 31-43) -/

/-- `handleFileChange`: given the optional first file of the input event,
accept it when its MIME type is `application/pdf` (clearing error and
diagram), otherwise report `Please select a PDF file` and clear the
selection.  The handler makes no network call, hence the constant `[]`
request list. -/
def handleFileChange (s : AppState) (file : Option FileMeta) :
    AppState × List NetRequest :=
  match file with
  | none => (s, [])
  | some f =>
    if f.mime = "application/pdf" then
      ({ s with selectedFile := some f, error := none, diagramUrl := none }, [])
    else
      ({ s with error := some "Please select a PDF file", selectedFile := none }, [])

/-! ## The Cancel button of the summary editor (App.tsx lines 465-480) -/

/-- The `onClick` of the Cancel button: hide the editor and clear the two
text areas, touching nothing else. -/
def cancelSummaryEditor (s : AppState) : AppState :=
  { s with showSummaryEditor := false, summaryText := "", diagramPrompt := "" }

/-! ## toggleCategory (ComponentList.tsx lines 66-76) -/

/-- `toggleCategory`: flip membership of one category name in the
expanded-categories set (a `Set<string>` in the source, a `Finset String`
here). -/
def toggleCategory (category : String) (prev : Finset String) : Finset String :=
  if category ∈ prev then prev.erase category else insert category prev

/-! ## getTypeColor (ComponentList.tsx lines 78-90) -/

/-- ASCII lowering of one character, as `toLowerCase` acts on the ASCII
range. -/
def lowerChar (c : Char) : Char :=
  if 'A' ≤ c ∧ c ≤ 'Z' then Char.ofNat (c.toNat + 32) else c

/-- ASCII lowering of a string (`type.toLowerCase()` on ASCII input). -/
def toLowerAscii (s : String) : String :=
  String.mk (s.toList.map lowerChar)

/-- `getTypeColor`: look the lowercased type up in the literal `colors`
record, defaulting to `#6B7280`.  The record has eight keys, including
`error`. -/
def getTypeColor (type_ : String) : String :=
  let l := toLowerAscii type_
  if l = "compute" then "#FF9900"
  else if l = "storage" then "#3B48CC"
  else if l = "database" then "#3B48CC"
  else if l = "network" then "#7AA116"
  else if l = "security" then "#DD344C"
  else if l = "monitoring" then "#146EB4"
  else if l = "integration" then "#9C83C9"
  else if l = "error" then "#DC2626"
  else "#6B7280"

/-! ## Base64

The `complete` event carries the rendered image as base64 text (spec §6).
The producer side (Backend/main.py) is not in the source tree, so its
encoding is modelled as standard base64; the consumer side below follows
App.tsx lines 217-221 (`atob` then per-character `charCodeAt` into a
`Uint8Array`), with `atob` modelled by its standard base64-decoding
semantics. -/

/-- The standard base64 alphabet, sextet value to character. -/
def base64Alphabet : List Char :=
  ['A', 'B', 'C', 'D', 'E', 'F', 'G', 'H', 'I', 'J', 'K', 'L', 'M',
   'N', 'O', 'P', 'Q', 'R', 'S', 'T', 'U', 'V', 'W', 'X', 'Y', 'Z',
   'a', 'b', 'c', 'd', 'e', 'f', 'g', 'h', 'i', 'j', 'k', 'l', 'm',
   'n', 'o', 'p', 'q', 'r', 's', 't', 'u', 'v', 'w', 'x', 'y', 'z',
   '0', '1', '2', '3', '4', '5', '6', '7', '8', '9', '+', '/']

/-- Character of a sextet value (defined for values below 64). -/
def b64Char (n : Nat) : Char :=
  base64Alphabet.getD n 'A'

/-- Sextet value of an alphabet character; `none` off the alphabet
(in particular for the padding character). -/
def b64Index (c : Char) : Option Nat :=
  base64Alphabet.findIdx? (fun d => d == c)

/-- Bytes to sextets, three bytes to four sextets, with the short final
group of one or two bytes becoming two or three sextets. -/
def bytesToSextets : List Nat → List Nat
  | [] => []
  | [a] => [a / 4, a % 4 * 16]
  | [a, b] => [a / 4, a % 4 * 16 + b / 16, b % 16 * 4]
  | a :: b :: c :: rest =>
      a / 4 :: (a % 4 * 16 + b / 16) :: (b % 16 * 4 + c / 64) :: c % 64 ::
        bytesToSextets rest

/-- Padding length of standard base64 for a byte count. -/
def b64PadLen (n : Nat) : Nat :=
  match n % 3 with
  | 1 => 2
  | 2 => 1
  | _ => 0

/-- Modelled from the spec: the producer (Backend/main.py, absent from the
source tree) sends the rendered image as base64-encoded bytes on the
terminal `complete` event (spec §6); this is the standard base64 encoding
of the byte sequence. -/
def encodeBase64 (bytes : List Nat) : List Char :=
  (bytesToSextets bytes).map b64Char ++ List.replicate (b64PadLen bytes.length) '='

/-- Sextets back to bytes, four sextets to three bytes, a short final group
of two or three sextets to one or two bytes; a lone trailing sextet is
invalid. -/
def sextetsToBytes : List Nat → Option (List Nat)
  | [] => some []
  | [_] => none
  | [w, x] => some [w * 4 + x / 16]
  | [w, x, y] => some [w * 4 + x / 16, x % 16 * 16 + y / 4]
  | w :: x :: y :: z :: rest =>
      (sextetsToBytes rest).map
        (fun bs => (w * 4 + x / 16) :: (x % 16 * 16 + y / 4) :: (y % 4 * 64 + z) :: bs)

/-- Map every character to its sextet value, failing on any character off
the alphabet. -/
def decodeChars : List Char → Option (List Nat)
  | [] => some []
  | c :: rest =>
      match b64Index c, decodeChars rest with
      | some n, some ns => some (n :: ns)
      | _, _ => none

/-- Strip the trailing padding characters. -/
def dropTrailingPad (s : List Char) : List Char :=
  (s.reverse.dropWhile (fun c => c == '=')).reverse

/-- The platform `atob` on a character list: strip padding, map characters
to sextets, regroup bits into bytes; `none` models the `InvalidCharacterError`
throw.  The result is the list of character codes of the binary string
`atob` returns. -/
def atobChars (s : List Char) : Option (List Nat) :=
  match decodeChars (dropTrailingPad s) with
  | none => none
  | some sextets => sextetsToBytes sextets

/-- The client decoding of `image_data` (App.tsx lines 217-221): `atob`,
then `bytes[i] = binaryString.charCodeAt(i)` into a `Uint8Array`, whose
element assignment truncates modulo 256. -/
def clientDecodeImage (imageData : String) : Option (List Nat) :=
  (atobChars imageData.toList).map (List.map (fun n => n % 256))

/-! ## handleApproveAndGenerate (App.tsx lines 151-251)

The external behaviour is a parameter: the `fetch` either fails (rejected
promise or non-ok status, both landing in the outer `catch`) or yields the
complete lines of the SSE body, split on newlines as the reader loop does.
`JSON.parse` is the platform JSON parser, passed as an oracle. -/

/-- The body of the `for (const line of lines)` loop (App.tsx lines
203-244): on a `data: ` line, parse the JSON remainder (a parse throw is
caught and changes nothing), append the event to the messages, update the
percentage when present, bind the decoded image on `complete`, record the
message on `error`. -/
def drainLine (parseJson : String → Option ProgressEvent) (s : AppState)
    (line : String) : AppState :=
  if jsStartsWith line "data: " then
    match parseJson (jsSlice line 6) with
    | none => s
    | some d =>
      let s1 := { s with progressMessages := s.progressMessages ++ [d] }
      let s2 := match d.progress with
        | some p => { s1 with progressPercent := p }
        | none => s1
      let s3 :=
        if d.status = Status.complete then
          match d.image_data with
          | some img =>
            match clientDecodeImage img with
            | some bytes =>
                { s2 with diagramUrl := some bytes, error := none, uploading := false }
            | none => s2
          | none => s2
        else s2
      if d.status = Status.error then
        { s3 with error := some d.message, uploading := false }
      else s3
  else s

/-- The render request App.tsx builds (lines 169-178): the four form-data
fields come from the component state. -/
def renderRequest (s : AppState) : NetRequest where
  url := "http://localhost:8000/api/generate-diagram-from-summary"
  fields := [("summary_text", s.summaryText), ("diagram_prompt", s.diagramPrompt),
             ("aws_region", s.awsRegion), ("bedrock_model_id", s.bedrockModelId)]

/-- `handleApproveAndGenerate`: reject an empty (after trim) summary before
any request; otherwise reset the progress state, issue the render request,
and either record the fetch failure or drain the stream lines. -/
def handleApproveAndGenerate (parseJson : String → Option ProgressEvent)
    (s : AppState) (response : Except String (List String)) :
    AppState × List NetRequest :=
  if trimAscii s.summaryText = "" then
    ({ s with error := some "Summary text cannot be empty" }, [])
  else
    let s0 := { s with uploading := true, error := none, diagramUrl := none,
                       progressMessages := [], progressPercent := 0 }
    match response with
    | Except.error msg => ({ s0 with error := some msg, uploading := false }, [renderRequest s])
    | Except.ok lines => (lines.foldl (drainLine parseJson) s0, [renderRequest s])

/-! ## handleGenerateSummary (App.tsx lines 45-149) -/

/-- The JSON body of a successful `/api/generate-summary` response; an
absent `summary` is the empty string (JavaScript falsiness). -/
structure SummaryBody where
  success : Bool
  summary : String
deriving DecidableEq, Repr

/-- The summary request App.tsx builds (lines 57-65). -/
def summaryRequest (s : AppState) (f : FileMeta) : NetRequest where
  url := "http://localhost:8000/api/generate-summary"
  fields := [("file", f.name), ("aws_region", s.awsRegion),
             ("bedrock_model_id", s.bedrockModelId)]

/-- The diagram-prompt template installed on a successful summary
(App.tsx lines 77-137). -/
def defaultPrompt : String :=
  "=== CRITICAL: HORIZONTAL LANDSCAPE LAYOUT (16:9) ===
YOU MUST CREATE A HORIZONTAL LANDSCAPE DIAGRAM.
- Canvas: 3840 pixels WIDE × 2160 pixels TALL (16:9 aspect ratio)
- Orientation: LANDSCAPE (wider than tall)
- Flow: LEFT-TO-RIGHT (not top-to-bottom)
- Graphviz rankdir: LR (if using DOT format)

Create a comprehensive AWS architecture diagram based on the following summary.

ARCHITECTURE SUMMARY:
{readable_summary}

HORIZONTAL COLUMN LAYOUT (LEFT → RIGHT):
┌─────────────┬─────────────┬─────────────┬─────────────┬─────────────┐
│  COLUMN 1   │  COLUMN 2   │  COLUMN 3   │  COLUMN 4   │  COLUMN 5   │
│  (LEFT)     │             │  (CENTER)   │             │  (RIGHT)    │
├─────────────┼─────────────┼─────────────┼─────────────┼─────────────┤
│ External &  │ Ingestion & │ Processing  │ Storage &   │ Monitoring  │
│ Sources     │ Events      │ & Compute   │ Security    │ & Output    │
└─────────────┴─────────────┴─────────────┴─────────────┴─────────────┘

COLUMN 1 - EXTERNAL & INGESTION (20% width):
   - External users, data sources
   - Email/API ingestion
   - S3 Input Buckets

COLUMN 2 - EVENTS & ROUTING (20% width):
   - S3 Events, Lambda triggers
   - EventBridge, SQS, SNS

COLUMN 3 - CORE PROCESSING (30% width):
   - Lambda/EC2/ECS/EKS
   - SageMaker, AI/ML services
   - Batch jobs

COLUMN 4 - DATA & SECURITY (20% width):
   - S3 Output, DynamoDB, RDS
   - ECR, KMS, Secrets Manager
   - IAM Roles

COLUMN 5 - MONITORING & INTEGRATION (10% width):
   - CloudWatch, X-Ray
   - External APIs
   - Notifications

STYLING REQUIREMENTS:
- NO COLORS: Grayscale/Black-White ONLY
- White background, black borders
- AWS icons in grayscale

LAYOUT REQUIREMENTS (MANDATORY):
1. HORIZONTAL LANDSCAPE: Width > Height
2. ASPECT RATIO: 16:9 (3840×2160 or 1920×1080)
3. FLOW: LEFT → RIGHT
4. GRAPHVIZ RANKDIR: LR (if using DOT)
5. NO VERTICAL STACKING

FORBIDDEN:
❌ NO vertical flow (top-to-bottom)
❌ NO portrait orientation
❌ NO colors"

/-- `handleGenerateSummary`: without a selected file, report immediately
and make no request; otherwise issue the summary request and, when the
response is ok with `success` and a non-empty `summary`, install the
summary and the prompt template and open the editor; any failure (network,
non-ok status, or an unsuccessful body) lands in the catch and records an
error message.  The `finally` clears `generatingSummary`. -/
def handleGenerateSummary (s : AppState)
    (response : Except String SummaryBody) : AppState × List NetRequest :=
  match s.selectedFile with
  | none => ({ s with error := some "Please select a PDF file first" }, [])
  | some f =>
    let s0 := { s with generatingSummary := true, error := none,
                       summaryText := "", showSummaryEditor := false }
    let s1 := match response with
      | Except.error msg => { s0 with error := some msg }
      | Except.ok body =>
        if body.success && body.summary != "" then
          { s0 with summaryText := body.summary, diagramPrompt := defaultPrompt,
                    showSummaryEditor := true }
        else
          { s0 with error := some "Failed to generate summary" }
    ({ s1 with generatingSummary := false }, [summaryRequest s f])

/-- The Approve and Generate button is rendered only inside the
`showSummaryEditor` conditional block (App.tsx lines 403, 435). -/
def approveButtonRendered (s : AppState) : Bool :=
  s.showSummaryEditor

/-- The Approve and Generate button can be clicked: rendered and not
disabled (App.tsx line 437). -/
def approveButtonClickable (s : AppState) : Bool :=
  approveButtonRendered s && !(trimAscii s.summaryText == "")
    && !(trimAscii s.diagramPrompt == "") && !s.uploading

/-! ## The progress-stream producer

Modelled from the spec: Backend/main.py (the Pipeline Orchestrator and the
Progress Channel producer) is not in the source tree.  Per spec §4.2/§4.3
the producer emits per-stage non-terminal events and, after the last stage,
exactly one terminal event: a `complete` carrying the artifact and the
minted request identifier on success, an `error` carrying a message on
failure. -/

/-- A non-terminal status a pipeline stage may report (spec §3: the status
tags other than the terminal pair). -/
inductive StageStatus where
  | info
  | success
  | warning
deriving DecidableEq, Repr

/-- A per-stage report of the orchestrator: message, non-terminal status,
optional percentage. -/
structure StageEvent where
  message : String
  status : StageStatus
  progress : Option Nat := none
deriving DecidableEq, Repr

/-- Inject a stage report into the event type of the wire protocol. -/
def StageEvent.toEvent (e : StageEvent) : ProgressEvent where
  message := e.message
  status := match e.status with
    | StageStatus.info => Status.info
    | StageStatus.success => Status.success
    | StageStatus.warning => Status.warning
  progress := e.progress

/-- The outcome of a render: on success the base64 image text and the
minted request identifier, on failure a human-readable cause. -/
def RenderOutcome : Type :=
  Except String (String × String)

/-- Modelled from the spec: the event stream the orchestrator produces for
one render call (spec §4.2, §4.3, §6): the stage reports in order, then
exactly one terminal event chosen by the outcome. -/
def orchestratorStream (stages : List StageEvent) (outcome : RenderOutcome) :
    List ProgressEvent :=
  stages.map StageEvent.toEvent ++
    [match outcome with
     | Except.ok (img, reqId) =>
        { message := "Diagram generated successfully!", status := Status.complete,
          progress := some 100, image_data := some img, request_id := some reqId }
     | Except.error msg =>
        { message := msg, status := Status.error }]

/-! ## The Structured Extractor

Modelled from the spec: Backend/main.py (the Structured Extractor, §4.1) is
not in the source tree.  The target schemas and their data models follow
the backend models documented in the repository (src/unnamed/part_003:
`ComponentItem`, `ComponentCategory`, `ComponentListResponse`,
`PseudoDiagramResponse`) and the matching frontend interfaces
(ComponentList.tsx lines 4-21).  The external generation call and the
structured-span parser are oracles; `extract` never fails: it repairs a
parsed value (defaults for missing optional fields, malformed entries
dropped, §4.1 parsing policy) and fabricates a minimal schema-conformant
fallback carrying the failure reason otherwise (§4.1 failure policy). -/

/-- A component of the inventory (backend `ComponentItem`, frontend
`ComponentItem` interface). -/
structure ComponentItem where
  name : String
  type : String
  description : String
  relationships : List String
deriving DecidableEq, Repr

/-- A category of the inventory (backend `ComponentCategory`). -/
structure ComponentCategory where
  category : String
  components : List ComponentItem
deriving DecidableEq, Repr

/-- The component inventory (backend `ComponentListResponse`). -/
structure ComponentListResponse where
  project_name : String
  summary : String
  categories : List ComponentCategory
  total_components : Nat
deriving DecidableEq, Repr

/-- The diagram description (backend `PseudoDiagramResponse`). -/
structure PseudoDiagramResponse where
  project_name : String
  diagram_type : String
  description : String
  syntax_ : String
deriving DecidableEq, Repr

/-- The closed set of target schemas of the Structured Extractor
(spec §4.1). -/
inductive TargetSchema where
  | summary
  | componentInventory
  | diagramDescription
deriving DecidableEq, Repr

/-- The value type of each target schema. -/
@[reducible] def SchemaTy : TargetSchema → Type
  | TargetSchema.summary => String
  | TargetSchema.componentInventory => ComponentListResponse
  | TargetSchema.diagramDescription => PseudoDiagramResponse

/-- Generation parameters of an extraction call (region and model
identifier, spec §3). -/
structure ModelParams where
  aws_region : String
  model_id : String
deriving DecidableEq, Repr

/-- Number of components across the categories. -/
def countComponents (cats : List ComponentCategory) : Nat :=
  (cats.map (fun c => c.components.length)).sum

/-- The required-field invariants of a schema value (spec §3, §4.1): a
summary is non-empty text; an inventory has a non-empty project name, a
consistent total, and fully typed components (non-empty name and type in
every non-empty-named category); a diagram description has a non-empty
type and syntax. -/
def wellFormed : (t : TargetSchema) → SchemaTy t → Bool
  | TargetSchema.summary, s => !(s == "")
  | TargetSchema.componentInventory, inv =>
      !(inv.project_name == "")
        && (inv.total_components == countComponents inv.categories)
        && inv.categories.all (fun c =>
             !(c.category == "")
               && c.components.all (fun x => !(x.name == "") && !(x.type == "")))
  | TargetSchema.diagramDescription, d =>
      !(d.diagram_type == "") && !(d.syntax_ == "")

/-- Modelled from the spec: the minimal schema-conformant fallback value,
carrying the failure reason in its text (spec §4.1 failure policy). -/
def fabricate : (t : TargetSchema) → String → SchemaTy t
  | TargetSchema.summary, reason => "Summary generation failed: " ++ reason
  | TargetSchema.componentInventory, reason =>
      { project_name := "Architecture Project"
        summary := "Extraction failed: " ++ reason
        categories := [{ category := "Error"
                         components := [{ name := "Extraction Failure", type := "error",
                                          description := reason, relationships := [] }] }]
        total_components := 1 }
  | TargetSchema.diagramDescription, reason =>
      { project_name := "Architecture Project"
        diagram_type := "mermaid"
        description := "Extraction failed: " ++ reason
        syntax_ := "flowchart LR\n  E[" ++ reason ++ "]" }

/-- Repair one parsed component: default an empty type to `unrecognized`
(spec §4.1 parsing policy). -/
def repairComponent (x : ComponentItem) : ComponentItem :=
  { x with type := if x.type = "" then "unrecognized" else x.type }

/-- Repair one parsed category: drop nameless components (malformed
entries are dropped, not fatal) and default the remaining types. -/
def repairCategory (c : ComponentCategory) : ComponentCategory :=
  { c with components := (c.components.filter (fun x => !(x.name == ""))).map repairComponent }

/-- Modelled from the spec: normalise a parsed value so that the
required-field invariants hold (spec §4.1 parsing policy: defaults for
missing optional fields, malformed units dropped, totals derived). -/
def repairValue : (t : TargetSchema) → SchemaTy t → SchemaTy t
  | TargetSchema.summary, s =>
      if s = "" then "Summary generation failed: model returned empty output" else s
  | TargetSchema.componentInventory, inv =>
      let cats := (inv.categories.map repairCategory).filter (fun c => !(c.category == ""))
      { project_name := if inv.project_name = "" then "Architecture Project" else inv.project_name
        summary := inv.summary
        categories := cats
        total_components := countComponents cats }
  | TargetSchema.diagramDescription, d =>
      { project_name := d.project_name
        diagram_type := if d.diagram_type = "" then "mermaid" else d.diagram_type
        description := d.description
        syntax_ := if d.syntax_ = "" then "flowchart LR" else d.syntax_ }

/-- The schema-specific instruction the extractor builds (spec §4.1); its
exact text is the backend's prompt, opaque here. -/
def instructionFor : TargetSchema → String
  | TargetSchema.summary => "Summarize the following architecture document."
  | TargetSchema.componentInventory => "List the architecture components as structured JSON."
  | TargetSchema.diagramDescription => "Produce a mermaid flowchart for the architecture."

/-- The discriminated result of an extraction (spec §3): a parsed value, or
a fallback value together with the failure reason.  There is no error
constructor: every result carries a schema value. -/
inductive ExtractionResult (T : Type) where
  | parsed (v : T)
  | fallback (v : T) (reason : String)
deriving DecidableEq, Repr

/-- The schema value every extraction result carries. -/
def ExtractionResult.value {T : Type} : ExtractionResult T → T
  | ExtractionResult.parsed v => v
  | ExtractionResult.fallback v _ => v

/-- Modelled from the spec: `extract` (spec §4.1).  `callModel` is the
external generation capability (instructions, input, parameters to raw
text or a failure), `parse` the structured-span parser for each schema;
both are oracles.  A call failure or an unparseable output takes the
fallback path; a parsed value is repaired to the documented defaults. -/
def extract (t : TargetSchema) (sourceText : String) (params : ModelParams)
    (callModel : String → String → ModelParams → Except String String)
    (parse : (u : TargetSchema) → String → Option (SchemaTy u)) :
    ExtractionResult (SchemaTy t) :=
  match callModel (instructionFor t) sourceText params with
  | Except.error e => ExtractionResult.fallback (fabricate t e) e
  | Except.ok raw =>
    match parse t raw with
    | none =>
        ExtractionResult.fallback
          (fabricate t "no parseable structured span in model output")
          "no parseable structured span in model output"
    | some v => ExtractionResult.parsed (repairValue t v)

/-! ## Theorems -/

/-- Claim C10: clicking Cancel in the summary editor sets
`showSummaryEditor` to false and clears `summaryText` and `diagramPrompt`,
and leaves every other piece of page state — `selectedFile`, `diagramUrl`,
`error`, `progressMessages`, `progressPercent`, `awsRegion`,
`bedrockModelId` (and the two busy flags) — unchanged. -/
theorem cancel_clears_editor_only (s : AppState) :
    (cancelSummaryEditor s).showSummaryEditor = false ∧
    (cancelSummaryEditor s).summaryText = "" ∧
    (cancelSummaryEditor s).diagramPrompt = "" ∧
    (cancelSummaryEditor s).selectedFile = s.selectedFile ∧
    (cancelSummaryEditor s).diagramUrl = s.diagramUrl ∧
    (cancelSummaryEditor s).error = s.error ∧
    (cancelSummaryEditor s).progressMessages = s.progressMessages ∧
    (cancelSummaryEditor s).progressPercent = s.progressPercent ∧
    (cancelSummaryEditor s).awsRegion = s.awsRegion ∧
    (cancelSummaryEditor s).bedrockModelId = s.bedrockModelId ∧
    (cancelSummaryEditor s).uploading = s.uploading ∧
    (cancelSummaryEditor s).generatingSummary = s.generatingSummary :=
  ⟨rfl, rfl, rfl, rfl, rfl, rfl, rfl, rfl, rfl, rfl, rfl, rfl⟩

/-- Claim C4: a selected file whose MIME type is not `application/pdf` is
rejected by `handleFileChange` with the error `Please select a PDF file`,
the selection is cleared, and no network request is issued. -/
theorem fileChange_rejects_non_pdf (s : AppState) (f : FileMeta)
    (h : f.mime ≠ "application/pdf") :
    (handleFileChange s (some f)).1.error = some "Please select a PDF file" ∧
    (handleFileChange s (some f)).1.selectedFile = none ∧
    (handleFileChange s (some f)).2 = [] := by
  simp [handleFileChange, h]

/-- Witness for C4 at a concrete text file. -/
theorem fileChange_rejects_non_pdf_witness :
    ("text/plain" ≠ "application/pdf") ∧
    ((handleFileChange initialState (some ⟨"notes.txt", "text/plain"⟩)).1.error
        = some "Please select a PDF file" ∧
      (handleFileChange initialState (some ⟨"notes.txt", "text/plain"⟩)).1.selectedFile = none ∧
      (handleFileChange initialState (some ⟨"notes.txt", "text/plain"⟩)).2 = []) :=
  ⟨by decide, fileChange_rejects_non_pdf initialState ⟨"notes.txt", "text/plain"⟩ (by decide)⟩

/-- Claim C9: `toggleCategory` is an involution on the expanded-categories
set, and one application flips membership of exactly the toggled category,
leaving every other category's membership unchanged. -/
theorem toggleCategory_involutive (c : String) (s : Finset String) :
    toggleCategory c (toggleCategory c s) = s ∧
    ∀ d : String, d ∈ toggleCategory c s ↔ (if d = c then c ∉ s else d ∈ s) := by
  constructor
  · by_cases h : c ∈ s
    · have h1 : toggleCategory c s = s.erase c := if_pos h
      have h2 : c ∉ s.erase c := by simp [Finset.mem_erase]
      rw [h1]
      show (if c ∈ s.erase c then (s.erase c).erase c else insert c (s.erase c)) = s
      rw [if_neg h2, Finset.insert_erase h]
    · have h1 : toggleCategory c s = insert c s := if_neg h
      have h2 : c ∈ insert c s := Finset.mem_insert_self c s
      rw [h1]
      show (if c ∈ insert c s then (insert c s).erase c else insert c (insert c s)) = s
      rw [if_pos h2, Finset.erase_insert h]
  · intro d
    by_cases hd : d = c
    · subst hd
      by_cases h : d ∈ s
      · simp [toggleCategory, if_pos h, Finset.mem_erase, h]
      · simp [toggleCategory, if_neg h, Finset.mem_insert, h]
    · by_cases h : c ∈ s
      · simp [toggleCategory, if_pos h, Finset.mem_erase, hd]
      · simp [toggleCategory, if_neg h, Finset.mem_insert, hd]

/-- Witness for C9 at concrete inputs: its closed conjuncts instantiated at
the category `Compute` and the set `{Storage}`, with the per-element clause
evaluated at `Storage` and at `Compute`. -/
theorem toggleCategory_involutive_witness :
    toggleCategory "Compute" (toggleCategory "Compute" {"Storage"}) = {"Storage"} ∧
    ("Storage" ∈ toggleCategory "Compute" ({"Storage"} : Finset String) ↔
      (if "Storage" = "Compute" then "Compute" ∉ ({"Storage"} : Finset String)
       else "Storage" ∈ ({"Storage"} : Finset String))) ∧
    ("Compute" ∈ toggleCategory "Compute" ({"Storage"} : Finset String) ↔
      (if "Compute" = "Compute" then "Compute" ∉ ({"Storage"} : Finset String)
       else "Compute" ∈ ({"Storage"} : Finset String))) :=
  ⟨(toggleCategory_involutive "Compute" {"Storage"}).1,
   (toggleCategory_involutive "Compute" {"Storage"}).2 "Storage",
   (toggleCategory_involutive "Compute" {"Storage"}).2 "Compute"⟩

/-- Claim C7 counterexample: the type `error` lies outside the claim's
closed set {compute, storage, database, network, security, monitoring,
integration}, yet `getTypeColor` maps it to `#DC2626`, not to the
unrecognized-default `#6B7280`. -/
theorem getTypeColor_error_breaks_default :
    getTypeColor "error" = "#DC2626" ∧
    "#DC2626" ≠ "#6B7280" ∧
    "error" ∉ ["compute", "storage", "database", "network", "security",
               "monitoring", "integration"] := by
  refine ⟨by decide, by decide, by decide⟩

/-- Claim C7 (amended): `getTypeColor` maps every type whose lowercasing is
one of the eight record keys — the claim's closed set plus `error` — to
that key's color (`error` to `#DC2626`), and every type whose lowercasing
is outside the eight keys to the default `#6B7280`. -/
theorem getTypeColor_closed_map (t : String) :
    (toLowerAscii t = "compute" → getTypeColor t = "#FF9900") ∧
    (toLowerAscii t = "storage" → getTypeColor t = "#3B48CC") ∧
    (toLowerAscii t = "database" → getTypeColor t = "#3B48CC") ∧
    (toLowerAscii t = "network" → getTypeColor t = "#7AA116") ∧
    (toLowerAscii t = "security" → getTypeColor t = "#DD344C") ∧
    (toLowerAscii t = "monitoring" → getTypeColor t = "#146EB4") ∧
    (toLowerAscii t = "integration" → getTypeColor t = "#9C83C9") ∧
    (toLowerAscii t = "error" → getTypeColor t = "#DC2626") ∧
    (toLowerAscii t ∉ ["compute", "storage", "database", "network", "security",
                       "monitoring", "integration", "error"] →
       getTypeColor t = "#6B7280") := by
  refine ⟨?_, ?_, ?_, ?_, ?_, ?_, ?_, ?_, ?_⟩ <;> intro h
  · rw [getTypeColor, h]; decide
  · rw [getTypeColor, h]; decide
  · rw [getTypeColor, h]; decide
  · rw [getTypeColor, h]; decide
  · rw [getTypeColor, h]; decide
  · rw [getTypeColor, h]; decide
  · rw [getTypeColor, h]; decide
  · rw [getTypeColor, h]; decide
  · simp only [List.mem_cons, List.not_mem_nil, or_false, not_or] at h
    obtain ⟨h1, h2, h3, h4, h5, h6, h7, h8⟩ := h
    rw [getTypeColor]
    simp [h1, h2, h3, h4, h5, h6, h7, h8]

/-- Witness for C7's amended theorem at the concrete types `Security` and
`lambda`. -/
theorem getTypeColor_closed_map_witness :
    (toLowerAscii "Security" = "security" ∧ getTypeColor "Security" = "#DD344C") ∧
    (toLowerAscii "lambda" ∉ ["compute", "storage", "database", "network", "security",
                              "monitoring", "integration", "error"] ∧
      getTypeColor "lambda" = "#6B7280") :=
  ⟨⟨by decide, (getTypeColor_closed_map "Security").2.2.2.2.1 (by decide)⟩,
   ⟨by decide, (getTypeColor_closed_map "lambda").2.2.2.2.2.2.2.2 (by decide)⟩⟩

/-- Claim C5: with an empty-after-trim summary text,
`handleApproveAndGenerate` records the error `Summary text cannot be
empty`, issues no request, and leaves the progress messages, the progress
percentage, the diagram URL and the uploading flag unchanged. -/
theorem approve_rejects_empty_summary (parseJson : String → Option ProgressEvent)
    (s : AppState) (resp : Except String (List String))
    (h : trimAscii s.summaryText = "") :
    (handleApproveAndGenerate parseJson s resp).1.error = some "Summary text cannot be empty" ∧
    (handleApproveAndGenerate parseJson s resp).2 = [] ∧
    (handleApproveAndGenerate parseJson s resp).1.progressMessages = s.progressMessages ∧
    (handleApproveAndGenerate parseJson s resp).1.progressPercent = s.progressPercent ∧
    (handleApproveAndGenerate parseJson s resp).1.diagramUrl = s.diagramUrl ∧
    (handleApproveAndGenerate parseJson s resp).1.uploading = s.uploading := by
  simp [handleApproveAndGenerate, h]

/-- Witness for C5 at a whitespace-only summary. -/
theorem approve_rejects_empty_summary_witness :
    (trimAscii "  " = "") ∧
    ((handleApproveAndGenerate (fun _ => none)
        { initialState with summaryText := "  " } (Except.ok [])).1.error
      = some "Summary text cannot be empty" ∧
     (handleApproveAndGenerate (fun _ => none)
        { initialState with summaryText := "  " } (Except.ok [])).2 = [] ∧
     (handleApproveAndGenerate (fun _ => none)
        { initialState with summaryText := "  " } (Except.ok [])).1.progressMessages
      = ({ initialState with summaryText := "  " } : AppState).progressMessages ∧
     (handleApproveAndGenerate (fun _ => none)
        { initialState with summaryText := "  " } (Except.ok [])).1.progressPercent
      = ({ initialState with summaryText := "  " } : AppState).progressPercent ∧
     (handleApproveAndGenerate (fun _ => none)
        { initialState with summaryText := "  " } (Except.ok [])).1.diagramUrl
      = ({ initialState with summaryText := "  " } : AppState).diagramUrl ∧
     (handleApproveAndGenerate (fun _ => none)
        { initialState with summaryText := "  " } (Except.ok [])).1.uploading
      = ({ initialState with summaryText := "  " } : AppState).uploading) := by
  have h : trimAscii "  " = "" := by decide
  exact ⟨h, approve_rejects_empty_summary (fun _ => none)
    { initialState with summaryText := "  " } (Except.ok []) h⟩

/-- Claim C8: a stream line that begins with `data: ` but whose remainder
the JSON parser rejects leaves the state unchanged, and the drain loop
over a line list containing it behaves as if the line were absent. -/
theorem malformed_line_is_noop (parseJson : String → Option ProgressEvent)
    (s : AppState) (line : String) (pre post : List String)
    (h1 : jsStartsWith line "data: " = true)
    (h2 : parseJson (jsSlice line 6) = none) :
    drainLine parseJson s line = s ∧
    (pre ++ line :: post).foldl (drainLine parseJson) s =
      (pre ++ post).foldl (drainLine parseJson) s := by
  have key : ∀ u : AppState, drainLine parseJson u line = u := by
    intro u
    simp [drainLine, h1, h2]
  refine ⟨key s, ?_⟩
  rw [List.foldl_append, List.foldl_append, List.foldl_cons, key]

/-- Witness for C8 at a concrete malformed line. -/
theorem malformed_line_is_noop_witness :
    (jsStartsWith "data: notjson" "data: " = true) ∧
    ((fun _ => (none : Option ProgressEvent)) (jsSlice "data: notjson" 6) = none) ∧
    (drainLine (fun _ => none) initialState "data: notjson" = initialState ∧
     (["x"] ++ "data: notjson" :: ["y"]).foldl (drainLine (fun _ => none)) initialState =
       (["x"] ++ ["y"]).foldl (drainLine (fun _ => none)) initialState) :=
  ⟨by decide, rfl,
   malformed_line_is_noop (fun _ => none) initialState "data: notjson" ["x"] ["y"]
     (by decide) rfl⟩

/-- `drainLine` never touches the `showSummaryEditor` flag. -/
theorem drainLine_showSummaryEditor (parseJson : String → Option ProgressEvent)
    (s : AppState) (line : String) :
    (drainLine parseJson s line).showSummaryEditor = s.showSummaryEditor := by
  unfold drainLine
  dsimp only
  repeat' split
  all_goals rfl

/-- The drain loop never touches the `showSummaryEditor` flag. -/
theorem foldl_drainLine_showSummaryEditor (parseJson : String → Option ProgressEvent)
    (lines : List String) (s : AppState) :
    (lines.foldl (drainLine parseJson) s).showSummaryEditor = s.showSummaryEditor := by
  induction lines generalizing s with
  | nil => rfl
  | cons l ls ih =>
      rw [List.foldl_cons, ih, drainLine_showSummaryEditor]

/-- Claim C3: the pipeline stages are entered in order.  Starting from a
state whose editor is closed, the summary handler opens the editor only
when the response is ok with `success` and a non-empty summary; the
Approve and Generate button is clickable only while the editor is open;
neither the render handler (including its drain loop) nor the file handler
ever opens the editor; and the render request's form data is built from
the caller-held `summaryText`, `diagramPrompt` and parameters, nothing
server-side. -/
theorem pipeline_stage_order (s : AppState) (resp : Except String SummaryBody)
    (parseJson : String → Option ProgressEvent)
    (resp2 : Except String (List String)) (file : Option FileMeta)
    (hclosed : s.showSummaryEditor = false) :
    ((handleGenerateSummary s resp).1.showSummaryEditor = true →
       ∃ body, resp = Except.ok body ∧ body.success = true ∧ body.summary ≠ "") ∧
    (approveButtonClickable s = true → s.showSummaryEditor = true) ∧
    ((handleApproveAndGenerate parseJson s resp2).1.showSummaryEditor = s.showSummaryEditor) ∧
    ((handleFileChange s file).1.showSummaryEditor = s.showSummaryEditor) ∧
    ((handleApproveAndGenerate parseJson s resp2).2 = [] ∨
      (handleApproveAndGenerate parseJson s resp2).2 =
        [{ url := "http://localhost:8000/api/generate-diagram-from-summary",
           fields := [("summary_text", s.summaryText), ("diagram_prompt", s.diagramPrompt),
                      ("aws_region", s.awsRegion), ("bedrock_model_id", s.bedrockModelId)] }]) := by
  refine ⟨?_, ?_, ?_, ?_, ?_⟩
  · intro hopen
    match hfile : s.selectedFile with
    | none =>
        rw [handleGenerateSummary, hfile] at hopen
        simp at hopen
        rw [hopen] at hclosed
        cases hclosed
    | some f =>
        rw [handleGenerateSummary, hfile] at hopen
        match resp with
        | Except.error msg => simp at hopen
        | Except.ok body =>
            dsimp only at hopen
            by_cases hb : body.success && (body.summary != "")
            · refine ⟨body, rfl, ?_, ?_⟩
              · exact (Bool.and_eq_true _ _ ▸ hb).1
              · have := (Bool.and_eq_true _ _ ▸ hb).2
                simpa [bne_iff_ne] using this
            · rw [if_neg hb] at hopen
              simp at hopen
  · intro hclick
    rw [approveButtonClickable, approveButtonRendered] at hclick
    simp only [Bool.and_eq_true] at hclick
    exact hclick.1.1.1
  · rw [handleApproveAndGenerate]
    split
    · rfl
    · dsimp only
      match resp2 with
      | Except.error msg => rfl
      | Except.ok lines =>
          dsimp only
          rw [foldl_drainLine_showSummaryEditor]
  · cases file with
    | none => rfl
    | some f =>
        simp only [handleFileChange]
        split <;> rfl
  · rw [handleApproveAndGenerate]
    split
    · exact Or.inl rfl
    · match resp2 with
      | Except.error msg => exact Or.inr rfl
      | Except.ok lines => exact Or.inr rfl

/-- Witness for C3 at a concrete closed-editor state and successful
response. -/
theorem pipeline_stage_order_witness :
    (initialState.showSummaryEditor = false) ∧
    (((handleGenerateSummary initialState
          (Except.ok ⟨true, "A summary."⟩)).1.showSummaryEditor = true →
       ∃ body, (Except.ok ⟨true, "A summary."⟩ : Except String SummaryBody)
          = Except.ok body ∧ body.success = true ∧ body.summary ≠ "") ∧
     (approveButtonClickable initialState = true →
        initialState.showSummaryEditor = true) ∧
     ((handleApproveAndGenerate (fun _ => none) initialState
          (Except.ok ["data: x"])).1.showSummaryEditor = initialState.showSummaryEditor) ∧
     ((handleFileChange initialState none).1.showSummaryEditor
        = initialState.showSummaryEditor) ∧
     ((handleApproveAndGenerate (fun _ => none) initialState (Except.ok ["data: x"])).2 = [] ∨
       (handleApproveAndGenerate (fun _ => none) initialState (Except.ok ["data: x"])).2 =
         [{ url := "http://localhost:8000/api/generate-diagram-from-summary",
            fields := [("summary_text", initialState.summaryText),
                       ("diagram_prompt", initialState.diagramPrompt),
                       ("aws_region", initialState.awsRegion),
                       ("bedrock_model_id", initialState.bedrockModelId)] }])) :=
  ⟨rfl, pipeline_stage_order initialState (Except.ok ⟨true, "A summary."⟩)
    (fun _ => none) (Except.ok ["data: x"]) none rfl⟩

/-- A stage event never injects to a terminal event. -/
theorem stageEvent_toEvent_not_terminal (e : StageEvent) :
    e.toEvent.isTerminal = false := by
  cases e with
  | mk m st p => cases st <;> rfl

/-- A predicate false on every injected stage event counts zero over the
stage prefix. -/
theorem countP_map_stage_zero (p : ProgressEvent → Bool)
    (hp : ∀ e : StageEvent, p e.toEvent = false) (stages : List StageEvent) :
    (stages.map StageEvent.toEvent).countP p = 0 := by
  rw [List.countP_eq_zero]
  intro a ha
  obtain ⟨e, _, rfl⟩ := List.mem_map.mp ha
  simp [hp e]

/-- Claim C2: every progress stream the orchestrator produces contains
exactly one terminal event, the terminal event is the last event of the
stream (no event after it), and it is a `complete` xor an `error`: the two
kinds together occur exactly once. -/
theorem progress_stream_single_terminal (stages : List StageEvent)
    (outcome : RenderOutcome) :
    (orchestratorStream stages outcome).countP ProgressEvent.isTerminal = 1 ∧
    (orchestratorStream stages outcome).dropLast.countP ProgressEvent.isTerminal = 0 ∧
    (orchestratorStream stages outcome).getLast?.any ProgressEvent.isTerminal = true ∧
    (orchestratorStream stages outcome).countP (fun e => e.status == Status.complete) +
      (orchestratorStream stages outcome).countP (fun e => e.status == Status.error) = 1 := by
  have hcomp : ∀ e : StageEvent, (e.toEvent.status == Status.complete) = false := by
    intro e; cases e with | mk m st p => cases st <;> rfl
  have herr : ∀ e : StageEvent, (e.toEvent.status == Status.error) = false := by
    intro e; cases e with | mk m st p => cases st <;> rfl
  cases outcome with
  | ok art =>
      obtain ⟨img, reqId⟩ := art
      simp only [orchestratorStream]
      refine ⟨?_, ?_, ?_, ?_⟩
      · rw [List.countP_append,
          countP_map_stage_zero _ stageEvent_toEvent_not_terminal]
        rfl
      · rw [List.dropLast_concat]
        exact countP_map_stage_zero _ stageEvent_toEvent_not_terminal stages
      · rw [List.getLast?_concat]
        rfl
      · rw [List.countP_append, List.countP_append,
          countP_map_stage_zero _ hcomp, countP_map_stage_zero _ herr]
        rfl
  | error msg =>
      simp only [orchestratorStream]
      refine ⟨?_, ?_, ?_, ?_⟩
      · rw [List.countP_append,
          countP_map_stage_zero _ stageEvent_toEvent_not_terminal]
        rfl
      · rw [List.dropLast_concat]
        exact countP_map_stage_zero _ stageEvent_toEvent_not_terminal stages
      · rw [List.getLast?_concat]
        rfl
      · rw [List.countP_append, List.countP_append,
          countP_map_stage_zero _ hcomp, countP_map_stage_zero _ herr]
        rfl

/-- The fabricated fallback value satisfies the required-field invariants
of its schema, whatever the failure reason. -/
theorem wellFormed_fabricate (t : TargetSchema) (r : String) :
    wellFormed t (fabricate t r) = true := by
  cases t with
  | summary =>
      have hne : ("Summary generation failed: " ++ r) ≠ "" := by
        intro h
        have hlen := congrArg String.length h
        rw [String.length_append] at hlen
        have h27 : ("Summary generation failed: " : String).length = 27 := rfl
        have h0 : ("" : String).length = 0 := rfl
        omega
      simp only [wellFormed, fabricate, Bool.not_eq_true', beq_eq_false_iff_ne]
      exact hne
  | componentInventory => rfl
  | diagramDescription =>
      have hne : (("flowchart LR\n  E[" ++ r) ++ "]") ≠ "" := by
        intro h
        have hlen := congrArg String.length h
        rw [String.length_append, String.length_append] at hlen
        have ha : ("flowchart LR\n  E[" : String).length = 17 := rfl
        have hb : ("]" : String).length = 1 := rfl
        have h0 : ("" : String).length = 0 := rfl
        omega
      simp only [wellFormed, fabricate, Bool.and_eq_true, Bool.not_eq_true',
        beq_eq_false_iff_ne]
      exact ⟨by decide, hne⟩

/-- The repaired form of any parsed value satisfies the required-field
invariants of its schema. -/
theorem wellFormed_repairValue (t : TargetSchema) (v : SchemaTy t) :
    wellFormed t (repairValue t v) = true := by
  cases t with
  | summary =>
      by_cases h : v = ""
      · simp only [repairValue, if_pos h]
        decide
      · simp only [repairValue, if_neg h, wellFormed, Bool.not_eq_true',
          beq_eq_false_iff_ne]
        exact h
  | componentInventory =>
      simp only [repairValue, wellFormed]
      simp only [Bool.and_eq_true]
      refine ⟨⟨?_, ?_⟩, ?_⟩
      · by_cases h : v.project_name = ""
        · rw [if_pos h]; decide
        · rw [if_neg h]
          simp only [Bool.not_eq_true', beq_eq_false_iff_ne]
          exact h
      · simp
      · rw [List.all_eq_true]
        intro c hc
        rw [List.mem_filter] at hc
        obtain ⟨hcm, hcp⟩ := hc
        rw [List.mem_map] at hcm
        obtain ⟨c0, _, rfl⟩ := hcm
        simp only [Bool.and_eq_true]
        refine ⟨hcp, ?_⟩
        show (List.map repairComponent _).all _ = true
        rw [List.all_eq_true]
        intro x hx
        rw [List.mem_map] at hx
        obtain ⟨x0, hx0, rfl⟩ := hx
        rw [List.mem_filter] at hx0
        obtain ⟨_, hname⟩ := hx0
        simp only [repairComponent, Bool.and_eq_true]
        refine ⟨hname, ?_⟩
        by_cases ht : x0.type = "" <;> simp [ht]
  | diagramDescription =>
      simp only [repairValue, wellFormed]
      simp only [Bool.and_eq_true]
      constructor
      · by_cases h : v.diagram_type = ""
        · rw [if_pos h]; decide
        · rw [if_neg h]
          simp only [Bool.not_eq_true', beq_eq_false_iff_ne]
          exact h
      · by_cases h : v.syntax_ = ""
        · rw [if_pos h]; decide
        · rw [if_neg h]
          simp only [Bool.not_eq_true', beq_eq_false_iff_ne]
          exact h

/-- Claim C1: for every non-empty source text and every target schema,
`extract` returns a value satisfying the schema's required fields; when
the external call fails the result is the fallback value fabricated from
the failure reason (carrying that reason), and when the output has no
parseable structured span the result is likewise a fallback, never an
error: the result type always carries a schema value. -/
theorem extract_always_wellFormed (t : TargetSchema) (sourceText : String)
    (params : ModelParams)
    (callModel : String → String → ModelParams → Except String String)
    (parse : (u : TargetSchema) → String → Option (SchemaTy u))
    (hsrc : sourceText ≠ "") :
    wellFormed t (extract t sourceText params callModel parse).value = true ∧
    (∀ e, callModel (instructionFor t) sourceText params = Except.error e →
       extract t sourceText params callModel parse =
         ExtractionResult.fallback (fabricate t e) e) ∧
    (∀ raw, callModel (instructionFor t) sourceText params = Except.ok raw →
       parse t raw = none →
       extract t sourceText params callModel parse =
         ExtractionResult.fallback
           (fabricate t "no parseable structured span in model output")
           "no parseable structured span in model output") := by
  refine ⟨?_, ?_, ?_⟩
  · unfold extract
    cases hcall : callModel (instructionFor t) sourceText params with
    | error e =>
        dsimp only
        exact wellFormed_fabricate t e
    | ok raw =>
        dsimp only
        cases hp : parse t raw with
        | none =>
            dsimp only
            exact wellFormed_fabricate t _
        | some v =>
            dsimp only [ExtractionResult.value]
            exact wellFormed_repairValue t v
  · intro e hcall
    unfold extract
    rw [hcall]
  · intro raw hcall hp
    unfold extract
    rw [hcall]
    dsimp only
    rw [hp]

/-- Witness for C1 at a concrete source text, the component-inventory
schema, a failing model call and a rejecting parser. -/
theorem extract_always_wellFormed_witness :
    ("A web service behind a load balancer writes to a managed database" ≠ "") ∧
    (wellFormed TargetSchema.componentInventory
        (extract TargetSchema.componentInventory
          "A web service behind a load balancer writes to a managed database"
          ⟨"us-east-1", "anthropic.claude-3-sonnet-20240229-v1:0"⟩
          (fun _ _ _ => Except.error "timeout")
          (fun _ _ => none)).value = true ∧
      (∀ e, (fun (_ : String) (_ : String) (_ : ModelParams) =>
              (Except.error "timeout" : Except String String))
            (instructionFor TargetSchema.componentInventory)
            "A web service behind a load balancer writes to a managed database"
            ⟨"us-east-1", "anthropic.claude-3-sonnet-20240229-v1:0"⟩ = Except.error e →
        extract TargetSchema.componentInventory
          "A web service behind a load balancer writes to a managed database"
          ⟨"us-east-1", "anthropic.claude-3-sonnet-20240229-v1:0"⟩
          (fun _ _ _ => Except.error "timeout") (fun _ _ => none) =
          ExtractionResult.fallback (fabricate TargetSchema.componentInventory e) e) ∧
      (∀ raw, (fun (_ : String) (_ : String) (_ : ModelParams) =>
              (Except.error "timeout" : Except String String))
            (instructionFor TargetSchema.componentInventory)
            "A web service behind a load balancer writes to a managed database"
            ⟨"us-east-1", "anthropic.claude-3-sonnet-20240229-v1:0"⟩ = Except.ok raw →
        (fun (_ : TargetSchema) (_ : String) =>
            (none : Option (SchemaTy TargetSchema.componentInventory)))
          TargetSchema.componentInventory raw = none →
        extract TargetSchema.componentInventory
          "A web service behind a load balancer writes to a managed database"
          ⟨"us-east-1", "anthropic.claude-3-sonnet-20240229-v1:0"⟩
          (fun _ _ _ => Except.error "timeout") (fun _ _ => none) =
          ExtractionResult.fallback
            (fabricate TargetSchema.componentInventory
              "no parseable structured span in model output")
            "no parseable structured span in model output")) := by
  refine ⟨by decide, ?_⟩
  exact extract_always_wellFormed TargetSchema.componentInventory
    "A web service behind a load balancer writes to a managed database"
    ⟨"us-east-1", "anthropic.claude-3-sonnet-20240229-v1:0"⟩
    (fun _ _ _ => Except.error "timeout")
    (fun _ _ => none)
    (by decide)

/-- Decoding a character of the alphabet recovers its sextet value. -/
theorem b64Index_b64Char (n : Nat) (h : n < 64) : b64Index (b64Char n) = some n := by
  have key : ∀ m : Fin 64, b64Index (b64Char m.val) = some m.val := by decide
  exact key ⟨n, h⟩

/-- Alphabet characters are never the padding character. -/
theorem b64Char_ne_pad (n : Nat) (h : n < 64) : (b64Char n == '=') = false := by
  have key : ∀ m : Fin 64, (b64Char m.val == '=') = false := by decide
  exact key ⟨n, h⟩

/-- Decoding the character image of a sextet list recovers the list. -/
theorem decodeChars_map_b64Char (l : List Nat) (h : ∀ x ∈ l, x < 64) :
    decodeChars (l.map b64Char) = some l := by
  induction l with
  | nil => rfl
  | cons a as ih =>
      have ha : a < 64 := h a (List.mem_cons_self a as)
      have has : ∀ x ∈ as, x < 64 := fun x hx => h x (List.mem_cons_of_mem a hx)
      simp only [List.map_cons, decodeChars, b64Index_b64Char a ha, ih has]

/-- `dropWhile` is the identity on a list none of whose elements satisfy
the predicate. -/
theorem dropWhile_eq_self_of (p : Char → Bool) (l : List Char)
    (h : ∀ c ∈ l, p c = false) : l.dropWhile p = l := by
  cases l with
  | nil => rfl
  | cons c cs => simp [List.dropWhile_cons, h c (List.mem_cons_self c cs)]

/-- `dropWhile` on padding consumes a leading padding block. -/
theorem dropWhile_pad_replicate (k : Nat) (l : List Char) :
    (List.replicate k '=' ++ l).dropWhile (fun c => c == '=') =
      l.dropWhile (fun c => c == '=') := by
  induction k with
  | zero => rfl
  | succ k ih => simp [List.replicate_succ, List.dropWhile_cons, ih]

/-- Stripping the trailing padding from an encoded block leaves exactly the
alphabet characters. -/
theorem dropTrailingPad_encode (l : List Nat) (h : ∀ x ∈ l, x < 64) (k : Nat) :
    dropTrailingPad (l.map b64Char ++ List.replicate k '=') = l.map b64Char := by
  unfold dropTrailingPad
  rw [List.reverse_append, List.reverse_replicate, dropWhile_pad_replicate,
    dropWhile_eq_self_of, List.reverse_reverse]
  intro c hc
  rw [List.mem_reverse] at hc
  obtain ⟨x, hx, rfl⟩ := List.mem_map.mp hc
  exact b64Char_ne_pad x (h x hx)

/-- Regrouping the sextets of a byte list recovers the bytes. -/
theorem sextets_bytes_roundtrip :
    ∀ (b : List Nat), (∀ x ∈ b, x < 256) →
      sextetsToBytes (bytesToSextets b) = some b
  | [], _ => rfl
  | [a], h => by
      simp only [bytesToSextets, sextetsToBytes, Option.some.injEq,
        List.cons.injEq, and_true]
      omega
  | [a, b'], h => by
      have hb : b' < 256 := h b' (by simp)
      simp only [bytesToSextets, sextetsToBytes, Option.some.injEq,
        List.cons.injEq, and_true]
      constructor
      · omega
      · omega
  | a :: b' :: c :: rest, h => by
      have hb : b' < 256 := h b' (by simp)
      have hc : c < 256 := h c (by simp)
      have ih := sextets_bytes_roundtrip rest (fun x hx => h x (by simp [hx]))
      simp only [bytesToSextets, sextetsToBytes, ih, Option.map_some',
        Option.some.injEq, List.cons.injEq, and_true]
      exact ⟨by omega, by omega, by omega⟩

/-- Every sextet of a byte list is below 64. -/
theorem sextets_lt_64 :
    ∀ (b : List Nat), (∀ x ∈ b, x < 256) →
      ∀ y ∈ bytesToSextets b, y < 64
  | [], _ => by simp [bytesToSextets]
  | [a], h => by
      have ha : a < 256 := h a (by simp)
      intro y hy
      simp only [bytesToSextets, List.mem_cons, List.not_mem_nil, or_false] at hy
      rcases hy with rfl | rfl <;> omega
  | [a, b'], h => by
      have ha : a < 256 := h a (by simp)
      have hb : b' < 256 := h b' (by simp)
      intro y hy
      simp only [bytesToSextets, List.mem_cons, List.not_mem_nil, or_false] at hy
      rcases hy with rfl | rfl | rfl <;> omega
  | a :: b' :: c :: rest, h => by
      have ha : a < 256 := h a (by simp)
      have hb : b' < 256 := h b' (by simp)
      have hc : c < 256 := h c (by simp)
      have ih := sextets_lt_64 rest (fun x hx => h x (by simp [hx]))
      intro y hy
      simp only [bytesToSextets, List.mem_cons] at hy
      rcases hy with rfl | rfl | rfl | rfl | hy
      · omega
      · omega
      · omega
      · omega
      · exact ih y hy

/-- Truncating each byte modulo 256 is the identity on byte lists. -/
theorem map_mod256_eq_self (b : List Nat) (h : ∀ x ∈ b, x < 256) :
    b.map (fun n => n % 256) = b := by
  induction b with
  | nil => rfl
  | cons a as ih =>
      have ha := Nat.mod_eq_of_lt (h a (by simp))
      have has : ∀ x ∈ as, x < 256 := fun x hx => h x (by simp [hx])
      simp [ha, ih has]

/-- Claim C6: the client decoding of App.tsx (`atob` then per-character
`charCodeAt` into a `Uint8Array`) is a left inverse of the producer's
base64 encoding: for every byte sequence carried on the `complete` event,
decoding its base64 encoding yields exactly the original bytes, so the
blob bound to `diagramUrl` holds precisely the rendered artifact. -/
theorem client_decode_left_inverse (b : List Nat) (h : ∀ x ∈ b, x < 256) :
    clientDecodeImage (String.mk (encodeBase64 b)) = some b := by
  have hs64 := sextets_lt_64 b h
  show (atobChars (String.mk (encodeBase64 b)).toList).map (List.map (fun n => n % 256))
    = some b
  have htl : (String.mk (encodeBase64 b)).toList = encodeBase64 b := rfl
  rw [htl]
  unfold atobChars encodeBase64
  rw [dropTrailingPad_encode _ hs64, decodeChars_map_b64Char _ hs64]
  dsimp only
  rw [sextets_bytes_roundtrip b h]
  simp only [Option.map_some', Option.some.injEq]
  exact map_mod256_eq_self b h

/-- Witness for C6 at the PNG signature bytes (a length exercising the
two-character padding path). -/
theorem client_decode_left_inverse_witness :
    (∀ x ∈ [137, 80, 78, 71], x < 256) ∧
    clientDecodeImage (String.mk (encodeBase64 [137, 80, 78, 71]))
      = some [137, 80, 78, 71] :=
  ⟨by decide, client_decode_left_inverse [137, 80, 78, 71] (by decide)⟩

end DiagramGen
